import Mathlib

/-!
Shallow embedding of the EnergyMonitor core logic (src/src/App.jsx):
the reading-chronology resolver `getPreviousReading`, the consumption
calculator `calcConsumption`, the record reconciler `addRecord`
(merge/insert paths), `updateRecord`, `deleteRecord`, `importData`,
and the chart aggregation `prepareMonthly`.

Modelling conventions:
* JS numbers are modelled as `ℚ` (all values in play are exact decimals).
* Form inputs coming from the numeric `<input>` elements are either the
  empty string `""` or a numeric value; both a numeric string and a
  number behave identically in every operation the code performs on
  them (`!== ""` test, `Number(x)`, `Number(x)||0`), so they are fused
  into one constructor `JVal.num`.
* `null`/absent is modelled with `Option`.
* `Array.prototype.sort` with the `(a.year - b.year) or (a.month - b.month)`
  comparator is a stable sort; a stable sort's output is uniquely
  determined by the comparator and the input order, so it is modelled by
  the (stable) structural `List.insertionSort` over the corresponding
  total preorder.
* `genId()` is random; `addRecord` takes the generated id as an explicit
  argument, with freshness as a hypothesis where a theorem needs it.
-/

set_option maxRecDepth 40000

namespace EnergyMonitor

/-- A form input value: the empty string, or a numeric value
(a number or a non-empty numeric string, which the code treats alike). -/
inductive JVal where
  | empty : JVal
  | num : ℚ → JVal
deriving DecidableEq, Repr

/-- JS `Number(x) || 0` for a form value: `Number("") = 0`, and a numeric
value maps to itself (`0 || 0 = 0`). -/
def numOr0 : JVal → ℚ
  | .empty => 0
  | .num v => v

/-- One stored record (App.jsx record objects; all fields plain numbers). -/
structure Rec where
  id : String
  year : ℤ
  month : ℤ
  householdState : ℚ
  householdConsumption : ℚ
  carState : ℚ
  carConsumption : ℚ
  bojlerConsumption : ℚ
  totalConsumption : ℚ
deriving DecidableEq, Repr

/-- The cumulative-state field name passed to `getPreviousReading`
("householdState" or "carState"). -/
inductive StateField where
  | householdState
  | carState
deriving DecidableEq, Repr

/-- Field access `r[stateField]`. -/
def stateVal : StateField → Rec → ℚ
  | .householdState, r => r.householdState
  | .carState, r => r.carState

/-- The sort comparator of `getPreviousReading`:
`a.year !== b.year ? a.year - b.year : a.month - b.month`. -/
def recCompare (a b : Rec) : ℤ :=
  if a.year ≠ b.year then a.year - b.year else a.month - b.month

/-- "a sorts before-or-equal b": the comparator is ≤ 0. -/
def keyLe (a b : Rec) : Prop := recCompare a b ≤ 0

instance : DecidableRel keyLe :=
  fun a b => inferInstanceAs (Decidable (recCompare a b ≤ 0))

/-- `r.year < year || (r.year === year && r.month < month)`:
the record's period is strictly before the target period. -/
def beforeP (year month : ℤ) (r : Rec) : Prop :=
  r.year < year ∨ (r.year = year ∧ r.month < month)

instance (year month : ℤ) : DecidablePred (beforeP year month) :=
  fun r => inferInstanceAs (Decidable (_ ∨ _))

/-- `r.id !== excludeId` where `excludeId` is a string or `null`. -/
def notExcluded (excludeId : Option String) (r : Rec) : Prop :=
  some r.id ≠ excludeId

instance (excludeId : Option String) : DecidablePred (notExcluded excludeId) :=
  fun r => inferInstanceAs (Decidable (_ ≠ _))

/-- App.jsx `getPreviousReading` (lines 86-94): filter out the excluded id,
sort by (year, month) ascending, keep records strictly before the target
period, and return the state field of the last one, else `null`. -/
def getPreviousReading (records : List Rec) (year month : ℤ)
    (stateField : StateField) (excludeId : Option String) : Option ℚ :=
  ((List.insertionSort keyLe
      (records.filter (fun r => decide (notExcluded excludeId r)))).filter
      (fun r => decide (beforeP year month r))).getLast?.map (stateVal stateField)

/-- App.jsx `calcConsumption` (lines 96-99): `0` when the previous state is
`null` or the current state is `null` or `""`; otherwise
`Math.max(0, Number(currentState) - Number(prevState))`. -/
def calcConsumption (currentState : Option JVal) (prevState : Option ℚ) : ℚ :=
  match prevState, currentState with
  | none, _ => 0
  | _, none => 0
  | _, some JVal.empty => 0
  | some p, some (JVal.num c) => max 0 (c - p)

/-- The submitted form data `fd` (the `BLANK()` shape of App.jsx):
year/month are numbers, states and bojler consumption are input strings,
the overrides are `null` or a non-empty numeric input. -/
structure FormData where
  year : ℤ
  month : ℤ
  householdState : JVal
  carState : JVal
  bojlerConsumption : JVal
  householdConsumptionOverride : Option ℚ
  carConsumptionOverride : Option ℚ
deriving DecidableEq, Repr

/-- Result of `addRecord`: the merge path returns
`{ record: updated.find(...), merged: true }`; the insert path returns the
bare new record, whose absent `merged` property reads as false. -/
structure SubmitResult where
  record : Option Rec
  merged : Bool
deriving DecidableEq, Repr

/-- `r.year === year && r.month === month`, the duplicate-period lookup. -/
def periodMatches (year month : ℤ) (r : Rec) : Prop :=
  r.year = year ∧ r.month = month

instance (year month : ℤ) : DecidablePred (periodMatches year month) :=
  fun r => inferInstanceAs (Decidable (_ ∧ _))

/-- Merge path, line 139: `fd.householdState !== "" ? fd.householdState :
existing.householdState`. -/
def mergeHState (fd : FormData) (existing : Rec) : JVal :=
  if fd.householdState ≠ JVal.empty then fd.householdState
  else JVal.num existing.householdState

/-- Merge path, line 140: the kept car state. -/
def mergeCState (fd : FormData) (existing : Rec) : JVal :=
  if fd.carState ≠ JVal.empty then fd.carState
  else JVal.num existing.carState

/-- Merge path, line 141: the kept bojler consumption. -/
def mergeBojler (fd : FormData) (existing : Rec) : JVal :=
  if fd.bojlerConsumption ≠ JVal.empty then fd.bojlerConsumption
  else JVal.num existing.bojlerConsumption

/-- Merge path, lines 142/144: the household consumption, from the
override if present, else from the calculator on the kept state and the
prior reading that excludes the existing record's own id.
`Number(fd.year)`/`Number(fd.month)` are the identity here because the form
keeps year and month as numbers. -/
def mergeHC (records : List Rec) (fd : FormData) (existing : Rec) : ℚ :=
  match fd.householdConsumptionOverride with
  | some v => v
  | none => calcConsumption (some (mergeHState fd existing))
      (getPreviousReading records fd.year fd.month .householdState (some existing.id))

/-- Merge path, lines 143/145: the car consumption. -/
def mergeCC (records : List Rec) (fd : FormData) (existing : Rec) : ℚ :=
  match fd.carConsumptionOverride with
  | some v => v
  | none => calcConsumption (some (mergeCState fd existing))
      (getPreviousReading records fd.year fd.month .carState (some existing.id))

/-- Merge path, lines 146-150: the in-place field rewrite applied to the
record(s) whose id equals the existing record's id. -/
def applyMerge (records : List Rec) (fd : FormData) (existing : Rec) (r : Rec) : Rec :=
  { r with householdState := numOr0 (mergeHState fd existing),
           householdConsumption := mergeHC records fd existing,
           carState := numOr0 (mergeCState fd existing),
           carConsumption := mergeCC records fd existing,
           bojlerConsumption := numOr0 (mergeBojler fd existing),
           totalConsumption := mergeHC records fd existing + mergeCC records fd existing }

/-- Merge path of App.jsx `addRecord` (lines 138-153): keep each incoming
field when non-empty else the existing record's value, recompute
consumptions, replace the existing record in place, and report
`merged: true` together with the updated record as re-found by id. -/
def mergePath (records : List Rec) (fd : FormData) (existing : Rec) :
    List Rec × SubmitResult :=
  ((records.map fun r =>
      if r.id ≠ existing.id then r else applyMerge records fd existing r),
   { record := (records.map fun r =>
        if r.id ≠ existing.id then r else applyMerge records fd existing r).find?
          (fun r => decide (r.id = existing.id)),
     merged := true })

/-- Insert path, lines 155/157: household consumption from the override if
present, else from the calculator on the raw input and the prior reading
with no exclusion. -/
def insertHC (records : List Rec) (fd : FormData) : ℚ :=
  match fd.householdConsumptionOverride with
  | some v => v
  | none => calcConsumption (some fd.householdState)
      (getPreviousReading records fd.year fd.month .householdState none)

/-- Insert path, lines 156/158: the car consumption. -/
def insertCC (records : List Rec) (fd : FormData) : ℚ :=
  match fd.carConsumptionOverride with
  | some v => v
  | none => calcConsumption (some fd.carState)
      (getPreviousReading records fd.year fd.month .carState none)

/-- Insert path, lines 159-164: the freshly created record. -/
def newRecOf (records : List Rec) (fd : FormData) (newId : String) : Rec :=
  { id := newId, year := fd.year, month := fd.month,
    householdState := numOr0 fd.householdState,
    householdConsumption := insertHC records fd,
    carState := numOr0 fd.carState,
    carConsumption := insertCC records fd,
    bojlerConsumption := numOr0 fd.bojlerConsumption,
    totalConsumption := insertHC records fd + insertCC records fd }

/-- Insert path of App.jsx `addRecord` (lines 155-167): append the new
record and return it bare (no merge flag). -/
def insertPath (records : List Rec) (fd : FormData) (newId : String) :
    List Rec × SubmitResult :=
  (records ++ [newRecOf records fd newId],
   { record := some (newRecOf records fd newId), merged := false })

/-- App.jsx `addRecord` (lines 134-168): look up an existing record for the
incoming (year, month) and dispatch to the merge or the insert path. -/
def addRecord (records : List Rec) (fd : FormData) (newId : String) :
    List Rec × SubmitResult :=
  match records.find? (fun r => decide (periodMatches fd.year fd.month r)) with
  | some existing => mergePath records fd existing
  | none => insertPath records fd newId

/-- Update, lines 171/173: household consumption for `updateRecord`,
excluding the edited record's own id from the chronology. -/
def updHC (records : List Rec) (id : String) (fd : FormData) : ℚ :=
  match fd.householdConsumptionOverride with
  | some v => v
  | none => calcConsumption (some fd.householdState)
      (getPreviousReading records fd.year fd.month .householdState (some id))

/-- Update, lines 172/174: the car consumption for `updateRecord`. -/
def updCC (records : List Rec) (id : String) (fd : FormData) : ℚ :=
  match fd.carConsumptionOverride with
  | some v => v
  | none => calcConsumption (some fd.carState)
      (getPreviousReading records fd.year fd.month .carState (some id))

/-- Update, lines 175-180: the full field rewrite, including the period. -/
def applyUpdate (records : List Rec) (id : String) (fd : FormData) (r : Rec) : Rec :=
  { r with year := fd.year, month := fd.month,
           householdState := numOr0 fd.householdState,
           householdConsumption := updHC records id fd,
           carState := numOr0 fd.carState,
           carConsumption := updCC records id fd,
           bojlerConsumption := numOr0 fd.bojlerConsumption,
           totalConsumption := updHC records id fd + updCC records id fd }

/-- App.jsx `updateRecord` (lines 170-182): rewrite every field of the
record with the given id, recomputing both consumptions. -/
def updateRecord (records : List Rec) (id : String) (fd : FormData) : List Rec :=
  records.map fun r => if r.id ≠ id then r else applyUpdate records id fd r

/-- App.jsx `deleteRecord` (lines 184-187). -/
def deleteRecord (records : List Rec) (id : String) : List Rec :=
  records.filter (fun r => decide (r.id ≠ id))

/-- App.jsx `importData` (line 189): replaces the record set wholesale. -/
def importData (_records : List Rec) (data : List Rec) : List Rec := data

/-- App.jsx `MONTHS_CZ` (lines 77-80). -/
def MONTHS_CZ : List String :=
  ["Leden","Únor","Březen","Duben","Květen","Červen",
   "Červenec","Srpen","Září","Říjen","Listopad","Prosinec"]

/-- The field name passed to `prepareMonthly`. -/
inductive ChartField where
  | householdConsumption
  | carConsumption
  | bojlerConsumption
  | totalConsumption
deriving DecidableEq, Repr

/-- Field access `r[field]` for chart fields. All records carry the field,
so JS `f[field] ?? 0` is just the field's value here. -/
def chartVal : ChartField → Rec → ℚ
  | .householdConsumption, r => r.householdConsumption
  | .carConsumption, r => r.carConsumption
  | .bojlerConsumption, r => r.bojlerConsumption
  | .totalConsumption, r => r.totalConsumption

/-- `[...new Set(xs)]`: deduplicate keeping first occurrences in
insertion order. -/
def jsSetDedup (l : List ℤ) : List ℤ :=
  l.foldl (fun acc y => if y ∈ acc then acc else acc ++ [y]) []

/-- JS string `<` comparison: lexicographic by UTF-16 code unit, a
proper prefix is smaller. -/
def jsStrLt : List Char → List Char → Bool
  | _, [] => false
  | [], _ :: _ => true
  | a :: as, b :: bs =>
    if a.val < b.val then true
    else if b.val < a.val then false
    else jsStrLt as bs

/-- The default (comparator-less) `Array.prototype.sort` order on the
years: JS converts each element to a string and compares strings, so
"a sorts before-or-equal b" is "not (String(b) < String(a))". -/
def yearLe (a b : ℤ) : Prop := ¬ jsStrLt (toString b).data (toString a).data = true

instance : DecidableRel yearLe :=
  fun a b => inferInstanceAs (Decidable (¬ _ = true))

/-- `[...new Set(records.map(r => r.year))].sort().slice(-2)` from
App.jsx `prepareMonthly` (line 211): the last two distinct years in the
default (string-comparing) sort order. -/
def selectedYears (records : List Rec) : List ℤ :=
  let ys := List.insertionSort yearLe (jsSetDedup (records.map Rec.year))
  ys.drop (ys.length - 2)

/-- One chart row: the abbreviated month name, and per selected year the
field's value — `none` models the JS `undefined` used for a missing
(year, month), which is distinct from `some 0`. -/
structure MonthRow where
  month : String
  values : List (ℤ × Option ℚ)
deriving DecidableEq, Repr

/-- The cell for month index i (0-based) and year y:
`records.find(r => r.year===y && r.month===i+1)` mapped to the field, or
`undefined` (`none`) when no record exists. -/
def monthValue (records : List Rec) (field : ChartField) (i : ℕ) (y : ℤ) :
    Option ℚ :=
  match records.find? (fun r => decide (r.year = y ∧ r.month = (i : ℤ) + 1)) with
  | some f => some (chartVal field f)
  | none => none

/-- One row of `prepareMonthly` for the enum entry (index, month name). -/
def monthRowOf (records : List Rec) (field : ChartField) (p : ℕ × String) :
    MonthRow :=
  { month := p.2.take 3,
    values := (selectedYears records).map fun y =>
      (y, monthValue records field p.1 y) }

/-- App.jsx `prepareMonthly` (lines 210-220): for each of the 12 calendar
months, emit a row keyed by the selected years, holding the field value
of the record found for that (year, month), or `undefined` if none. -/
def prepareMonthly (records : List Rec) (field : ChartField) : List MonthRow :=
  MONTHS_CZ.enum.map (monthRowOf records field)

/-- At most one record per (year, month) pair (the §3 invariant). -/
def uniquePeriods (records : List Rec) : Prop :=
  records.Pairwise (fun a b => ¬ (a.year = b.year ∧ a.month = b.month))

/-- All record ids are distinct. -/
def uniqueIds (records : List Rec) : Prop :=
  records.Pairwise (fun a b => a.id ≠ b.id)

/-- The §3 derived-total invariant for one record. -/
def totalInv (r : Rec) : Prop :=
  r.totalConsumption = r.householdConsumption + r.carConsumption

instance (l : List Rec) : Decidable (uniquePeriods l) :=
  inferInstanceAs
    (Decidable (l.Pairwise fun a b : Rec => ¬ (a.year = b.year ∧ a.month = b.month)))

instance (l : List Rec) : Decidable (uniqueIds l) :=
  inferInstanceAs (Decidable (l.Pairwise fun a b : Rec => a.id ≠ b.id))

instance (r : Rec) : Decidable (totalInv r) :=
  inferInstanceAs (Decidable (_ = _))

/-- Record constructor helper for concrete instances. -/
def mkRec (id : String) (y m : ℤ) (hs hc cs cc b t : ℚ) : Rec :=
  { id := id, year := y, month := m, householdState := hs, householdConsumption := hc,
    carState := cs, carConsumption := cc, bojlerConsumption := b, totalConsumption := t }

/-- Any sequence of submissions, applied through `addRecord` (each with
its generated id). -/
def submitAll (records : List Rec) (subs : List (FormData × String)) : List Rec :=
  subs.foldl (fun recs s => (addRecord recs s.1 s.2).1) records

/-- Scenario C data: January 2024, household state 100. -/
def scnJan : Rec := mkRec "a" 2024 1 100 0 0 0 0 0

/-- Scenario C data: February 2024, household state 150, consumption 50. -/
def scnFeb : Rec := mkRec "b" 2024 2 150 50 0 0 0 50

/-- Scenario C submission: February 2024 with revised household state 180. -/
def scnSubmit : FormData :=
  { year := 2024, month := 2, householdState := JVal.num 180,
    carState := JVal.empty, bojlerConsumption := JVal.empty,
    householdConsumptionOverride := none, carConsumptionOverride := none }

/-- A January record with a negative stored household state (states are
not validated, §3: "not enforced"). -/
def negJan : Rec := mkRec "a" 2024 1 (-5) 0 0 0 0 0

/-- A February submission that leaves the household state blank. -/
def fdEmptyHousehold : FormData :=
  { year := 2024, month := 2, householdState := JVal.empty,
    carState := JVal.num 7, bojlerConsumption := JVal.empty,
    householdConsumptionOverride := none, carConsumptionOverride := none }

/-- An imported record whose stored total (999) differs from the sum of
its consumptions (1 + 1). -/
def badImport : Rec := mkRec "x" 2024 1 0 1 0 1 0 999

/-- Chart data with three distinct years of different digit lengths. -/
def y999 : Rec := mkRec "a" 999 1 0 0 0 0 0 41

/-- Chart data, year 1000. -/
def y1000 : Rec := mkRec "b" 1000 1 0 0 0 0 0 42

/-- Chart data, year 2023. -/
def y2023 : Rec := mkRec "c" 2023 1 0 0 0 0 0 43

/-- An existing record with bojler consumption 7. -/
def bojRec : Rec := mkRec "a" 2024 1 100 0 0 0 7 0

/-- A re-submission of the same period that leaves bojler blank. -/
def fdBoj : FormData :=
  { year := 2024, month := 1, householdState := JVal.num 100,
    carState := JVal.empty, bojlerConsumption := JVal.empty,
    householdConsumptionOverride := none, carConsumptionOverride := none }

/-- Scenario D submission: household override 25 with state 999. -/
def fdOverride : FormData :=
  { year := 2024, month := 1, householdState := JVal.num 999,
    carState := JVal.empty, bojlerConsumption := JVal.empty,
    householdConsumptionOverride := some 25, carConsumptionOverride := none }

/-- An edit of record "a" that moves it to February 2024 (record "b"'s
period). -/
def fdMoveToFeb : FormData :=
  { year := 2024, month := 2, householdState := JVal.num 100,
    carState := JVal.num 0, bojlerConsumption := JVal.num 0,
    householdConsumptionOverride := none, carConsumptionOverride := none }

section Helpers

theorem keyLe_iff (a b : Rec) :
    keyLe a b ↔ (a.year < b.year ∨ (a.year = b.year ∧ a.month ≤ b.month)) := by
  unfold keyLe recCompare
  split <;> omega

theorem keyLe_refl (a : Rec) : keyLe a a := by
  rw [keyLe_iff]
  omega

instance : IsTrans Rec keyLe :=
  ⟨fun a b c hab hbc => by
    rw [keyLe_iff] at hab hbc ⊢
    omega⟩

instance : IsTotal Rec keyLe :=
  ⟨fun a b => by
    rw [keyLe_iff, keyLe_iff]
    omega⟩

theorem pairwise_rel_getLast {α : Type} {R : α → α → Prop} (hrefl : ∀ a, R a a) :
    ∀ (l : List α) (hl : l ≠ []), l.Pairwise R → ∀ x ∈ l, R x (l.getLast hl) := by
  intro l
  induction l with
  | nil => intro hl; exact absurd rfl hl
  | cons a t ih =>
    intro hl hp x hx
    cases t with
    | nil =>
      have hxa : x = a := by simpa using hx
      subst hxa
      exact hrefl x
    | cons b t2 =>
      rw [List.getLast_cons (List.cons_ne_nil b t2)]
      rcases List.mem_cons.mp hx with rfl | hx2
      · exact (List.pairwise_cons.mp hp).1 _ (List.getLast_mem (List.cons_ne_nil b t2))
      · exact ih (List.cons_ne_nil b t2) (List.pairwise_cons.mp hp).2 x hx2

/-- Membership in the filtered chronology used by `getPreviousReading`. -/
theorem mem_prevList_iff (records : List Rec) (year month : ℤ)
    (excludeId : Option String) (r : Rec) :
    r ∈ (List.insertionSort keyLe
          (records.filter (fun x => decide (notExcluded excludeId x)))).filter
          (fun x => decide (beforeP year month x)) ↔
      r ∈ records ∧ notExcluded excludeId r ∧ beforeP year month r := by
  rw [List.mem_filter, (List.perm_insertionSort keyLe _).mem_iff, List.mem_filter]
  simp [and_assoc]

theorem prevList_pairwise (records : List Rec) (year month : ℤ)
    (excludeId : Option String) :
    ((List.insertionSort keyLe
        (records.filter (fun x => decide (notExcluded excludeId x)))).filter
        (fun x => decide (beforeP year month x))).Pairwise keyLe :=
  (List.sorted_insertionSort keyLe _).filter _

/-- What a successful chronology resolution returns: the state field of a
record of the set that is eligible, strictly prior, and chronologically
maximal among all eligible prior records. -/
theorem getPrev_some (records : List Rec) (year month : ℤ) (f : StateField)
    (excludeId : Option String) (v : ℚ)
    (h : getPreviousReading records year month f excludeId = some v) :
    ∃ r, r ∈ records ∧ notExcluded excludeId r ∧ beforeP year month r ∧
      stateVal f r = v ∧
      ∀ r', r' ∈ records → notExcluded excludeId r' → beforeP year month r' →
        keyLe r' r := by
  unfold getPreviousReading at h
  set prev := (List.insertionSort keyLe
      (records.filter (fun x => decide (notExcluded excludeId x)))).filter
      (fun x => decide (beforeP year month x)) with hprev
  rcases Option.map_eq_some'.mp h with ⟨w, hw, hv⟩
  have hne : prev ≠ [] := by
    intro hnil
    rw [hnil] at hw
    exact Option.noConfusion hw
  have hlast : w = prev.getLast hne := by
    have := List.getLast?_eq_getLast prev hne
    rw [this] at hw
    exact (Option.some.injEq _ _).mp hw.symm
  refine ⟨w, ?_, ?_, ?_, hv, ?_⟩
  · exact ((mem_prevList_iff records year month excludeId w).mp
      (hlast ▸ List.getLast_mem hne)).1
  · exact ((mem_prevList_iff records year month excludeId w).mp
      (hlast ▸ List.getLast_mem hne)).2.1
  · exact ((mem_prevList_iff records year month excludeId w).mp
      (hlast ▸ List.getLast_mem hne)).2.2
  · intro r' hr' hex hbef
    have hmem : r' ∈ prev :=
      (mem_prevList_iff records year month excludeId r').mpr ⟨hr', hex, hbef⟩
    have := pairwise_rel_getLast keyLe_refl prev hne
      (prevList_pairwise records year month excludeId) r' hmem
    rwa [hlast]

/-- The resolver returns absent exactly when no eligible prior record
exists. -/
theorem getPrev_none_iff (records : List Rec) (year month : ℤ) (f : StateField)
    (excludeId : Option String) :
    getPreviousReading records year month f excludeId = none ↔
      ∀ r ∈ records, notExcluded excludeId r → ¬ beforeP year month r := by
  unfold getPreviousReading
  set prev := (List.insertionSort keyLe
      (records.filter (fun x => decide (notExcluded excludeId x)))).filter
      (fun x => decide (beforeP year month x)) with hprev
  rw [Option.map_eq_none', List.getLast?_eq_none_iff]
  constructor
  · intro hnil r hr hex hbef
    have : r ∈ prev :=
      (mem_prevList_iff records year month excludeId r).mpr ⟨hr, hex, hbef⟩
    rw [hnil] at this
    exact List.not_mem_nil r this
  · intro hall
    by_contra hne
    rcases List.exists_mem_of_ne_nil prev hne with ⟨r, hr⟩
    rcases (mem_prevList_iff records year month excludeId r).mp hr with ⟨h1, h2, h3⟩
    exact hall r h1 h2 h3

/-- The resolver only looks at the excluded-id filtering of its input. -/
theorem getPrev_congr (records₁ records₂ : List Rec) (year month : ℤ)
    (f : StateField) (exc₁ exc₂ : Option String)
    (h : records₁.filter (fun r => decide (notExcluded exc₁ r)) =
         records₂.filter (fun r => decide (notExcluded exc₂ r))) :
    getPreviousReading records₁ year month f exc₁ =
      getPreviousReading records₂ year month f exc₂ := by
  unfold getPreviousReading
  rw [h]

end Helpers

section ReconcilerHelpers

theorem applyMerge_id (records : List Rec) (fd : FormData) (existing r : Rec) :
    (applyMerge records fd existing r).id = r.id := rfl

theorem applyMerge_year (records : List Rec) (fd : FormData) (existing r : Rec) :
    (applyMerge records fd existing r).year = r.year := rfl

theorem applyMerge_month (records : List Rec) (fd : FormData) (existing r : Rec) :
    (applyMerge records fd existing r).month = r.month := rfl

theorem applyUpdate_id (records : List Rec) (id : String) (fd : FormData) (r : Rec) :
    (applyUpdate records id fd r).id = r.id := rfl

theorem addRecord_eq_merge (records : List Rec) (fd : FormData) (newId : String)
    (existing : Rec)
    (h : records.find? (fun r => decide (periodMatches fd.year fd.month r)) =
      some existing) :
    addRecord records fd newId = mergePath records fd existing := by
  unfold addRecord
  rw [h]

theorem addRecord_eq_insert (records : List Rec) (fd : FormData) (newId : String)
    (h : records.find? (fun r => decide (periodMatches fd.year fd.month r)) = none) :
    addRecord records fd newId = insertPath records fd newId := by
  unfold addRecord
  rw [h]

theorem find?_id_of_uniqueIds (l : List Rec) (a : Rec) (hu : uniqueIds l)
    (ha : a ∈ l) :
    l.find? (fun r => decide (r.id = a.id)) = some a := by
  induction l with
  | nil => cases ha
  | cons x t ih =>
    rcases List.mem_cons.mp ha with rfl | hat
    · exact List.find?_cons_of_pos t (by simp)
    · have hx : x.id ≠ a.id := (List.pairwise_cons.mp hu).1 a hat
      rw [List.find?_cons_of_neg t (by simpa using hx)]
      exact ih (List.pairwise_cons.mp hu).2 hat

theorem find?_congr {α : Type} (l : List α) (p q : α → Bool) (h : ∀ a, p a = q a) :
    l.find? p = l.find? q := by
  rw [funext h]

theorem id_forces_eq (records : List Rec) (a b : Rec) (hids : uniqueIds records)
    (ha : a ∈ records) (hb : b ∈ records) (h : a.id = b.id) : a = b := by
  by_contra hne
  exact List.Pairwise.forall (R := fun x y : Rec => x.id ≠ y.id)
    (fun x y hxy he => hxy he.symm) hids ha hb hne h

theorem mergePath_map_form (records : List Rec) (fd : FormData) (existing : Rec)
    (hmem : existing ∈ records) (hids : uniqueIds records) :
    (records.map fun r =>
        if r.id ≠ existing.id then r else applyMerge records fd existing r) =
      records.map fun r =>
        if r.id = existing.id then applyMerge records fd existing existing else r := by
  apply List.map_congr_left
  intro a ha
  by_cases h : a.id = existing.id
  · have haeq : a = existing := id_forces_eq records a existing hids ha hmem h
    subst haeq
    simp
  · simp [h]

theorem mergePath_find (records : List Rec) (fd : FormData) (existing : Rec)
    (hmem : existing ∈ records) (hids : uniqueIds records) :
    (records.map fun r =>
        if r.id ≠ existing.id then r else applyMerge records fd existing r).find?
        (fun r => decide (r.id = existing.id)) =
      some (applyMerge records fd existing existing) := by
  rw [List.find?_map]
  have hp : ∀ r : Rec,
      ((fun r : Rec => decide (r.id = existing.id)) ∘
        (fun r : Rec => if r.id ≠ existing.id then r else applyMerge records fd existing r)) r =
      (fun r : Rec => decide (r.id = existing.id)) r := by
    intro r
    by_cases h : r.id = existing.id <;>
      simp [Function.comp, h, applyMerge_id]
  rw [find?_congr _ _ _ hp, find?_id_of_uniqueIds records existing hids hmem,
    Option.map_some']
  simp

theorem mergeHState_eq (fd : FormData) (existing : Rec) :
    numOr0 (mergeHState fd existing) =
      if fd.householdState = JVal.empty then existing.householdState
      else numOr0 fd.householdState := by
  unfold mergeHState
  by_cases h : fd.householdState = JVal.empty <;> simp [h, numOr0]

theorem mergeCState_eq (fd : FormData) (existing : Rec) :
    numOr0 (mergeCState fd existing) =
      if fd.carState = JVal.empty then existing.carState
      else numOr0 fd.carState := by
  unfold mergeCState
  by_cases h : fd.carState = JVal.empty <;> simp [h, numOr0]

theorem mergeBojler_eq (fd : FormData) (existing : Rec) :
    numOr0 (mergeBojler fd existing) =
      if fd.bojlerConsumption = JVal.empty then existing.bojlerConsumption
      else numOr0 fd.bojlerConsumption := by
  unfold mergeBojler
  by_cases h : fd.bojlerConsumption = JVal.empty <;> simp [h, numOr0]

end ReconcilerHelpers

theorem calcConsumption_empty (p : Option ℚ) :
    calcConsumption (some JVal.empty) p = 0 := by
  cases p <;> rfl

/-- C2: the Consumption Calculator returns 0 when the previous state is
absent or the current state is absent or empty, and otherwise returns
max(0, current − previous); the result is never negative, and is 0
whenever current ≤ previous or either input is absent. -/
theorem C2_calcConsumption (currentState : Option JVal) (prevState : Option ℚ) :
    0 ≤ calcConsumption currentState prevState ∧
    (prevState = none → calcConsumption currentState prevState = 0) ∧
    (currentState = none ∨ currentState = some JVal.empty →
      calcConsumption currentState prevState = 0) ∧
    (∀ c p, currentState = some (JVal.num c) → prevState = some p →
      calcConsumption currentState prevState = max 0 (c - p) ∧
      (c ≤ p → calcConsumption currentState prevState = 0)) := by
  refine ⟨?_, ?_, ?_, ?_⟩
  · cases prevState with
    | none => cases currentState <;> simp [calcConsumption]
    | some p =>
      cases currentState with
      | none => simp [calcConsumption]
      | some c =>
        cases c with
        | empty => simp [calcConsumption]
        | num cv => exact le_max_left 0 (cv - p)
  · rintro rfl
    cases currentState with
    | none => rfl
    | some c => cases c <;> rfl
  · rintro (rfl | rfl)
    · cases prevState <;> rfl
    · exact calcConsumption_empty prevState
  · rintro c p rfl rfl
    refine ⟨rfl, fun hle => ?_⟩
    show max 0 (c - p) = 0
    rw [max_eq_left (sub_nonpos.mpr hle)]

/-- C2 witness: at current state 3 and previous state 5, the result is
max(0, 3 − 5) = 0. -/
theorem C2_calcConsumption_witness :
    calcConsumption (some (JVal.num 3)) (some 5) = max 0 (3 - 5) ∧
    calcConsumption (some (JVal.num 3)) (some 5) = 0 :=
  ⟨((C2_calcConsumption (some (JVal.num 3)) (some 5)).2.2.2 3 5 rfl rfl).1,
   ((C2_calcConsumption (some (JVal.num 3)) (some 5)).2.2.2 3 5 rfl rfl).2
     (by norm_num)⟩

/-- C10: the update operation does not enforce period uniqueness: editing
record "a" of January 2024 to February 2024 while record "b" already holds
February 2024 yields two records with the same (year, month). -/
theorem C10_update_duplicates :
    (updateRecord [mkRec "a" 2024 1 100 0 0 0 0 0, mkRec "b" 2024 2 150 50 0 0 0 50]
        "a" fdMoveToFeb).map (fun r => (r.year, r.month)) = [(2024, 2), (2024, 2)] ∧
    ¬ uniquePeriods (updateRecord
        [mkRec "a" 2024 1 100 0 0 0 0 0, mkRec "b" 2024 2 150 50 0 0 0 50]
        "a" fdMoveToFeb) := by
  with_unfolding_all decide

/-- C3 counterexample: `importData` replaces the record set verbatim, so
importing a record whose stored total is 999 while its household and car
consumptions are 1 and 1 leaves a record violating
totalConsumption = householdConsumption + carConsumption. -/
theorem C3_import_breaks_totalInv :
    badImport ∈ importData [] [badImport] ∧ ¬ totalInv badImport := by
  with_unfolding_all decide

/-- C3 amended: after insert, merge, update and delete every record
satisfies totalConsumption = householdConsumption + carConsumption
whenever every starting record did (the mutated record satisfies it by
construction and totalConsumption is never set independently); import
replaces the set verbatim, so the invariant holds after import exactly
when the imported data itself satisfies it. -/
theorem C3_totalInv_preserved (records data : List Rec) (fd : FormData)
    (newId id : String) (hall : ∀ r ∈ records, totalInv r) :
    (∀ r ∈ (addRecord records fd newId).1, totalInv r) ∧
    (∀ r ∈ updateRecord records id fd, totalInv r) ∧
    (∀ r ∈ deleteRecord records id, totalInv r) ∧
    ((∀ r ∈ data, totalInv r) → ∀ r ∈ importData records data, totalInv r) := by
  refine ⟨?_, ?_, ?_, fun h => h⟩
  · unfold addRecord
    cases hfind : records.find? (fun r => decide (periodMatches fd.year fd.month r)) with
    | some existing =>
      intro r hr
      rcases List.mem_map.mp hr with ⟨x, hx, hxr⟩
      by_cases hid : x.id ≠ existing.id
      · rw [if_pos hid] at hxr
        exact hxr ▸ hall x hx
      · rw [if_neg hid] at hxr
        exact hxr ▸ rfl
    | none =>
      intro r hr
      rcases List.mem_append.mp hr with hx | hx
      · exact hall r hx
      · have : r = newRecOf records fd newId := by simpa using hx
        exact this ▸ rfl
  · intro r hr
    rcases List.mem_map.mp hr with ⟨x, hx, hxr⟩
    by_cases hid : x.id ≠ id
    · rw [if_pos hid] at hxr
      exact hxr ▸ hall x hx
    · rw [if_neg hid] at hxr
      exact hxr ▸ rfl
  · intro r hr
    exact hall r (List.mem_filter.mp hr).1

/-- C3 witness: starting from a set satisfying the invariant, the merge of
Scenario C keeps the invariant on every record. -/
theorem C3_totalInv_preserved_witness :
    (∀ r ∈ [scnJan, scnFeb], totalInv r) ∧
    (∀ r ∈ (addRecord [scnJan, scnFeb] scnSubmit "c").1, totalInv r) :=
  ⟨by with_unfolding_all decide,
   (C3_totalInv_preserved [scnJan, scnFeb] [] scnSubmit "c" "a"
     (by with_unfolding_all decide)).1⟩

/-- C5: over a record set with unique periods, the resolver returns the
requested state field of the chronologically latest record strictly before
the target period among records whose id differs from the excluded id, and
returns absent exactly when no such record exists. -/
theorem C5_resolver (records : List Rec) (year month : ℤ) (f : StateField)
    (excludeId : Option String) (hU : uniquePeriods records) :
    (∀ v, getPreviousReading records year month f excludeId = some v ↔
       ∃ r, r ∈ records ∧ notExcluded excludeId r ∧ beforeP year month r ∧
         stateVal f r = v ∧
         ∀ r', r' ∈ records → notExcluded excludeId r' → beforeP year month r' →
           keyLe r' r) ∧
    (getPreviousReading records year month f excludeId = none ↔
       ∀ r ∈ records, notExcluded excludeId r → ¬ beforeP year month r) := by
  constructor
  · intro v
    constructor
    · exact getPrev_some records year month f excludeId v
    · rintro ⟨r, hrmem, hex, hbef, hval, hmax⟩
      unfold getPreviousReading
      set prev := (List.insertionSort keyLe
          (records.filter (fun x => decide (notExcluded excludeId x)))).filter
          (fun x => decide (beforeP year month x)) with hprevdef
      have hrprev : r ∈ prev := by
        rw [hprevdef]
        exact (mem_prevList_iff records year month excludeId r).mpr ⟨hrmem, hex, hbef⟩
      have hne : prev ≠ [] := List.ne_nil_of_mem hrprev
      rw [List.getLast?_eq_getLast prev hne, Option.map_some']
      have hlastmem : prev.getLast hne ∈ prev := List.getLast_mem hne
      obtain ⟨hlrec, hlex, hlbef⟩ :=
        (mem_prevList_iff records year month excludeId (prev.getLast hne)).mp
          (by rw [← hprevdef]; exact hlastmem)
      have h1 : keyLe (prev.getLast hne) r := hmax _ hlrec hlex hlbef
      have h2 : keyLe r (prev.getLast hne) :=
        pairwise_rel_getLast keyLe_refl prev hne
          (by rw [hprevdef]; exact prevList_pairwise records year month excludeId)
          r hrprev
      have heq : prev.getLast hne = r := by
        by_contra hne2
        have hforall := List.Pairwise.forall
          (R := fun a b : Rec => ¬ (a.year = b.year ∧ a.month = b.month))
          (fun a b h hab => h ⟨hab.1.symm, hab.2.symm⟩) hU hlrec hrmem hne2
        rw [keyLe_iff] at h1 h2
        exact hforall (by omega)
      rw [heq, hval]
  · exact getPrev_none_iff records year month f excludeId

/-- C5 witness: with January and February 2024 present (unique periods),
resolving household state for (2024, 2) with no exclusion yields January's
reading 100. -/
theorem C5_resolver_witness :
    uniquePeriods [scnJan, scnFeb] ∧
    getPreviousReading [scnJan, scnFeb] 2024 2 StateField.householdState none =
      some 100 :=
  ⟨by with_unfolding_all decide,
   ((C5_resolver [scnJan, scnFeb] 2024 2 StateField.householdState none
       (by with_unfolding_all decide)).1 100).mpr
     ⟨scnJan, by with_unfolding_all decide, by with_unfolding_all decide,
      by with_unfolding_all decide, by with_unfolding_all decide,
      by with_unfolding_all decide⟩⟩

/-- C1: when a record already exists for the incoming (year, month) (and
ids are unique), the submit operation replaces that record in place,
keeping its id, year and month, taking each of household state, car state
and bojler consumption from the incoming value when explicitly provided
(non-empty) and from the existing record otherwise, leaves every other
record unchanged, and returns the updated record with the merge indicator
set. -/
theorem C1_merge_path (records : List Rec) (fd : FormData) (newId : String)
    (existing : Rec)
    (hfind : records.find? (fun r => decide (periodMatches fd.year fd.month r)) =
      some existing)
    (hids : uniqueIds records) :
    addRecord records fd newId =
      (records.map (fun r =>
          if r.id = existing.id then applyMerge records fd existing existing else r),
       { record := some (applyMerge records fd existing existing), merged := true }) ∧
    (applyMerge records fd existing existing).id = existing.id ∧
    (applyMerge records fd existing existing).year = existing.year ∧
    (applyMerge records fd existing existing).month = existing.month ∧
    (applyMerge records fd existing existing).householdState =
      (if fd.householdState = JVal.empty then existing.householdState
       else numOr0 fd.householdState) ∧
    (applyMerge records fd existing existing).carState =
      (if fd.carState = JVal.empty then existing.carState
       else numOr0 fd.carState) ∧
    (applyMerge records fd existing existing).bojlerConsumption =
      (if fd.bojlerConsumption = JVal.empty then existing.bojlerConsumption
       else numOr0 fd.bojlerConsumption) := by
  have hmem := List.mem_of_find?_eq_some hfind
  rw [addRecord_eq_merge records fd newId existing hfind]
  unfold mergePath
  rw [mergePath_find records fd existing hmem hids,
    mergePath_map_form records fd existing hmem hids]
  exact ⟨rfl, rfl, rfl, rfl, mergeHState_eq fd existing, mergeCState_eq fd existing,
    mergeBojler_eq fd existing⟩

/-- C1 witness (Scenario C): re-submitting February 2024 with revised
household state 180 updates February in place (household consumption 80),
leaves January untouched and reports a merge. -/
theorem C1_merge_path_witness :
    [scnJan, scnFeb].find?
        (fun r => decide (periodMatches scnSubmit.year scnSubmit.month r)) =
      some scnFeb ∧
    uniqueIds [scnJan, scnFeb] ∧
    addRecord [scnJan, scnFeb] scnSubmit "c" =
      ([scnJan, scnFeb].map (fun r =>
          if r.id = scnFeb.id then applyMerge [scnJan, scnFeb] scnSubmit scnFeb scnFeb
          else r),
       { record := some (applyMerge [scnJan, scnFeb] scnSubmit scnFeb scnFeb),
         merged := true }) ∧
    applyMerge [scnJan, scnFeb] scnSubmit scnFeb scnFeb =
      mkRec "b" 2024 2 180 80 0 0 0 80 :=
  ⟨by with_unfolding_all decide, by with_unfolding_all decide,
   (C1_merge_path [scnJan, scnFeb] scnSubmit "c" scnFeb
     (by with_unfolding_all decide) (by with_unfolding_all decide)).1,
   by with_unfolding_all decide⟩

theorem mergePath_record_shape (records : List Rec) (fd : FormData)
    (existing : Rec) (hmem : existing ∈ records) :
    ∃ x, x ∈ records ∧ x.id = existing.id ∧
      (mergePath records fd existing).2.record =
        some (applyMerge records fd existing x) := by
  unfold mergePath
  have hsome : ((records.map fun r =>
      if r.id ≠ existing.id then r else applyMerge records fd existing r).find?
        (fun r => decide (r.id = existing.id))).isSome := by
    rw [List.find?_isSome]
    refine ⟨applyMerge records fd existing existing, ?_, by simp [applyMerge_id]⟩
    have : applyMerge records fd existing existing =
        (fun r => if r.id ≠ existing.id then r else applyMerge records fd existing r)
          existing := by simp
    rw [this]
    exact List.mem_map_of_mem _ hmem
  cases hfound : (records.map fun r =>
      if r.id ≠ existing.id then r else applyMerge records fd existing r).find?
        (fun r => decide (r.id = existing.id)) with
  | none => rw [hfound] at hsome; cases hsome
  | some u =>
    have hu : u.id = existing.id := by
      have := List.find?_some hfound
      simpa using this
    rcases List.mem_map.mp (List.mem_of_find?_eq_some hfound) with ⟨x, hx, hxu⟩
    by_cases hxid : x.id = existing.id
    · rw [if_neg (fun h => h hxid)] at hxu
      exact ⟨x, hx, hxid, by rw [← hxu]⟩
    · rw [if_pos hxid] at hxu
      exact absurd (hxu ▸ hu) hxid

/-- C7: when the caller supplies an explicit consumption override for
household or car, the calculator is bypassed and the submitted record's
consumption field is exactly the override value, on both the merge and the
insert path, regardless of any state input. -/
theorem C7_override_bypass (records : List Rec) (fd : FormData) (newId : String) :
    (∀ v, fd.householdConsumptionOverride = some v →
      (addRecord records fd newId).2.record.map Rec.householdConsumption = some v) ∧
    (∀ v, fd.carConsumptionOverride = some v →
      (addRecord records fd newId).2.record.map Rec.carConsumption = some v) := by
  unfold addRecord
  cases hfind : records.find? (fun r => decide (periodMatches fd.year fd.month r)) with
  | some existing =>
    rcases mergePath_record_shape records fd existing
      (List.mem_of_find?_eq_some hfind) with ⟨x, -, -, hshape⟩
    constructor
    · intro v hv
      rw [hshape, Option.map_some']
      show some (mergeHC records fd existing) = some v
      unfold mergeHC
      rw [hv]
    · intro v hv
      rw [hshape, Option.map_some']
      show some (mergeCC records fd existing) = some v
      unfold mergeCC
      rw [hv]
  | none =>
    constructor
    · intro v hv
      show some (insertHC records fd) = some v
      unfold insertHC
      rw [hv]
    · intro v hv
      show some (insertCC records fd) = some v
      unfold insertCC
      rw [hv]

/-- C7 witness (Scenario D): submitting household override 25 together
with household state 999 stores household consumption 25. -/
theorem C7_override_bypass_witness :
    fdOverride.householdConsumptionOverride = some 25 ∧
    (addRecord [] fdOverride "a").2.record.map Rec.householdConsumption = some 25 :=
  ⟨rfl, (C7_override_bypass [] fdOverride "a").1 25 rfl⟩

/-- C9 counterexample: submitting the existing period January 2024 with an
empty bojler input while the stored record has bojler consumption 7 keeps
7 — the empty consumption-only field is not coerced to zero on the merge
path. -/
theorem C9_empty_bojler_not_zeroed :
    fdBoj.bojlerConsumption = JVal.empty ∧
    (addRecord [bojRec] fdBoj "b").2.record.map Rec.bojlerConsumption = some 7 ∧
    (7 : ℚ) ≠ 0 := by
  with_unfolding_all decide

/-- C9 amended: invalid (empty) numeric input never raises a hard failure
and every stored field stays a plain number: on the merge path an empty
household state, car state or bojler input is treated as "value not
provided" and the existing record's value is kept; on the insert path an
empty bojler input is coerced to zero, and an empty household/car state
stores state 0 and (absent an override) derives consumption 0. -/
theorem C9_invalid_input (records : List Rec) (fd : FormData) (newId : String)
    (existing : Rec) :
    (records.find? (fun r => decide (periodMatches fd.year fd.month r)) =
        some existing →
      ((fd.bojlerConsumption = JVal.empty →
        (addRecord records fd newId).2.record.map Rec.bojlerConsumption =
          some existing.bojlerConsumption) ∧
       (fd.householdState = JVal.empty →
        (addRecord records fd newId).2.record.map Rec.householdState =
          some existing.householdState) ∧
       (fd.carState = JVal.empty →
        (addRecord records fd newId).2.record.map Rec.carState =
          some existing.carState))) ∧
    (records.find? (fun r => decide (periodMatches fd.year fd.month r)) = none →
      ((fd.bojlerConsumption = JVal.empty →
        (addRecord records fd newId).2.record.map Rec.bojlerConsumption = some 0) ∧
       (fd.householdState = JVal.empty →
        (addRecord records fd newId).2.record.map Rec.householdState = some 0 ∧
        (fd.householdConsumptionOverride = none →
         (addRecord records fd newId).2.record.map Rec.householdConsumption =
           some 0)) ∧
       (fd.carState = JVal.empty →
        (addRecord records fd newId).2.record.map Rec.carState = some 0 ∧
        (fd.carConsumptionOverride = none →
         (addRecord records fd newId).2.record.map Rec.carConsumption =
           some 0)))) := by
  constructor
  · intro hfind
    rw [addRecord_eq_merge records fd newId existing hfind]
    rcases mergePath_record_shape records fd existing
      (List.mem_of_find?_eq_some hfind) with ⟨x, -, -, hshape⟩
    rw [hshape]
    refine ⟨fun hb => ?_, fun hh => ?_, fun hc => ?_⟩
    · rw [Option.map_some']
      show some (numOr0 (mergeBojler fd existing)) = _
      rw [mergeBojler_eq, if_pos hb]
    · rw [Option.map_some']
      show some (numOr0 (mergeHState fd existing)) = _
      rw [mergeHState_eq, if_pos hh]
    · rw [Option.map_some']
      show some (numOr0 (mergeCState fd existing)) = _
      rw [mergeCState_eq, if_pos hc]
  · intro hfind
    rw [addRecord_eq_insert records fd newId hfind]
    refine ⟨fun hb => ?_, fun hh => ⟨?_, fun hov => ?_⟩, fun hc => ⟨?_, fun hov => ?_⟩⟩
    · show some (numOr0 fd.bojlerConsumption) = some 0
      rw [hb]
      rfl
    · show some (numOr0 fd.householdState) = some 0
      rw [hh]
      rfl
    · show some (insertHC records fd) = some 0
      unfold insertHC
      rw [hov, hh, calcConsumption_empty]
    · show some (numOr0 fd.carState) = some 0
      rw [hc]
      rfl
    · show some (insertCC records fd) = some 0
      unfold insertCC
      rw [hov, hc, calcConsumption_empty]

/-- C9 witness: merging January 2024 with empty bojler and car inputs
keeps the stored bojler consumption (7) and car state. -/
theorem C9_invalid_input_witness :
    [bojRec].find?
        (fun r => decide (periodMatches fdBoj.year fdBoj.month r)) = some bojRec ∧
    fdBoj.bojlerConsumption = JVal.empty ∧
    (addRecord [bojRec] fdBoj "b").2.record.map Rec.bojlerConsumption =
      some bojRec.bojlerConsumption :=
  ⟨by with_unfolding_all decide, rfl,
   ((C9_invalid_input [bojRec] fdBoj "b" bojRec).1
     (by with_unfolding_all decide)).1 rfl⟩

theorem mergeMapFn_year (records : List Rec) (fd : FormData) (existing r : Rec) :
    (if r.id ≠ existing.id then r else applyMerge records fd existing r).year =
      r.year := by
  by_cases h : r.id ≠ existing.id <;> simp [h, applyMerge_year]

theorem mergeMapFn_month (records : List Rec) (fd : FormData) (existing r : Rec) :
    (if r.id ≠ existing.id then r else applyMerge records fd existing r).month =
      r.month := by
  by_cases h : r.id ≠ existing.id <;> simp [h, applyMerge_month]

theorem addRecord_preserves_uniquePeriods (records : List Rec) (fd : FormData)
    (newId : String) (hU : uniquePeriods records) :
    uniquePeriods (addRecord records fd newId).1 := by
  unfold addRecord
  cases hfind : records.find? (fun r => decide (periodMatches fd.year fd.month r)) with
  | some existing =>
    show uniquePeriods (records.map fun r =>
      if r.id ≠ existing.id then r else applyMerge records fd existing r)
    unfold uniquePeriods at hU ⊢
    rw [List.pairwise_map]
    refine hU.imp ?_
    intro a b hab
    rw [mergeMapFn_year, mergeMapFn_year, mergeMapFn_month, mergeMapFn_month]
    exact hab
  | none =>
    show uniquePeriods (records ++ [newRecOf records fd newId])
    unfold uniquePeriods at hU ⊢
    rw [List.pairwise_append]
    refine ⟨hU, List.pairwise_singleton _ _, ?_⟩
    intro a ha b hb
    have hb' : b = newRecOf records fd newId := by simpa using hb
    subst hb'
    have hnot := List.find?_eq_none.mp hfind a ha
    rw [decide_eq_true_iff] at hnot
    intro hcontra
    exact hnot ⟨hcontra.1, hcontra.2⟩

theorem submitAll_preserves_uniquePeriods (subs : List (FormData × String)) :
    ∀ records, uniquePeriods records → uniquePeriods (submitAll records subs) := by
  induction subs with
  | nil => exact fun records hU => hU
  | cons s rest ih =>
    intro records hU
    exact ih _ (addRecord_preserves_uniquePeriods records s.1 s.2 hU)

/-- C4: starting from a record set with unique (year, month) pairs, any
sequence of submissions through `addRecord` keeps at most one record per
period; a duplicate period on submit is not an error but is redirected to
the merge path, which sets the merge indicator and adds no record. -/
theorem C4_period_uniqueness (records : List Rec) (subs : List (FormData × String))
    (hU : uniquePeriods records) :
    uniquePeriods (submitAll records subs) ∧
    ∀ fd newId existing,
      records.find? (fun r => decide (periodMatches fd.year fd.month r)) =
        some existing →
      ((addRecord records fd newId).2.merged = true ∧
       (addRecord records fd newId).1.length = records.length) := by
  refine ⟨submitAll_preserves_uniquePeriods subs records hU, ?_⟩
  intro fd newId existing hfind
  rw [addRecord_eq_merge records fd newId existing hfind]
  exact ⟨rfl, List.length_map _ _⟩

/-- C4 witness: with January and February 2024 present, submitting the
Scenario C update (a duplicate period) keeps periods unique, reports a
merge and leaves the record count at 2. -/
theorem C4_period_uniqueness_witness :
    uniquePeriods [scnJan, scnFeb] ∧
    uniquePeriods (submitAll [scnJan, scnFeb] [(scnSubmit, "c")]) ∧
    (addRecord [scnJan, scnFeb] scnSubmit "c").2.merged = true ∧
    (addRecord [scnJan, scnFeb] scnSubmit "c").1.length = [scnJan, scnFeb].length :=
  ⟨by with_unfolding_all decide,
   (C4_period_uniqueness [scnJan, scnFeb] [(scnSubmit, "c")]
     (by with_unfolding_all decide)).1,
   ((C4_period_uniqueness [scnJan, scnFeb] [(scnSubmit, "c")]
     (by with_unfolding_all decide)).2 scnSubmit "c" scnFeb
     (by with_unfolding_all decide)).1,
   ((C4_period_uniqueness [scnJan, scnFeb] [(scnSubmit, "c")]
     (by with_unfolding_all decide)).2 scnSubmit "c" scnFeb
     (by with_unfolding_all decide)).2⟩

theorem map_eq_self_of_mem {α : Type} (l : List α) (f : α → α)
    (h : ∀ a ∈ l, f a = a) : l.map f = l := by
  induction l with
  | nil => rfl
  | cons x t ih =>
    rw [List.map_cons, h x (List.mem_cons_self x t),
      ih (fun a ha => h a (List.mem_cons_of_mem x ha))]

theorem mergeMapFn_id (records : List Rec) (fd : FormData) (existing r : Rec) :
    (if r.id ≠ existing.id then r else applyMerge records fd existing r).id = r.id := by
  by_cases h : r.id ≠ existing.id <;> simp [h, applyMerge_id]

theorem filter_excl_map (l : List Rec) (f : Rec → Rec) (eid : String)
    (hid : ∀ r, (f r).id = r.id) (hfix : ∀ r, r.id ≠ eid → f r = r) :
    (l.map f).filter (fun r => decide (notExcluded (some eid) r)) =
      l.filter (fun r => decide (notExcluded (some eid) r)) := by
  rw [List.filter_map]
  have h1 : l.filter ((fun r => decide (notExcluded (some eid) r)) ∘ f) =
      l.filter (fun r => decide (notExcluded (some eid) r)) :=
    List.filter_congr (fun a _ => by simp [Function.comp, notExcluded, hid])
  rw [h1]
  apply map_eq_self_of_mem
  intro a ha
  have hmem := (List.mem_filter.mp ha).2
  rw [decide_eq_true_iff] at hmem
  exact hfix a (by simpa [notExcluded] using hmem)

theorem filter_excl_append (l : List Rec) (x : Rec)
    (hfresh : ∀ r ∈ l, r.id ≠ x.id) :
    (l ++ [x]).filter (fun r => decide (notExcluded (some x.id) r)) =
      l.filter (fun r => decide (notExcluded none r)) := by
  rw [List.filter_append]
  have h1 : l.filter (fun r => decide (notExcluded (some x.id) r)) = l :=
    List.filter_eq_self.mpr (fun a ha => by simpa [notExcluded] using hfresh a ha)
  have h2 : [x].filter (fun r => decide (notExcluded (some x.id) r)) = [] := by
    simp [notExcluded]
  have h3 : l.filter (fun r => decide (notExcluded none r)) = l :=
    List.filter_eq_self.mpr (fun a ha => by simp [notExcluded])
  rw [h1, h2, h3, List.append_nil]

theorem mergeHState_applyMerge (records : List Rec) (fd : FormData)
    (existing x : Rec) :
    mergeHState fd (applyMerge records fd existing x) = mergeHState fd existing := by
  by_cases h : fd.householdState = JVal.empty
  · have hfield : (applyMerge records fd existing x).householdState =
        existing.householdState := by
      show numOr0 (mergeHState fd existing) = existing.householdState
      rw [mergeHState_eq, if_pos h]
    unfold mergeHState
    simp only [h, ne_eq, not_true_eq_false, if_false, hfield]
  · unfold mergeHState
    simp [h]

theorem mergeCState_applyMerge (records : List Rec) (fd : FormData)
    (existing x : Rec) :
    mergeCState fd (applyMerge records fd existing x) = mergeCState fd existing := by
  by_cases h : fd.carState = JVal.empty
  · have hfield : (applyMerge records fd existing x).carState =
        existing.carState := by
      show numOr0 (mergeCState fd existing) = existing.carState
      rw [mergeCState_eq, if_pos h]
    unfold mergeCState
    simp only [h, ne_eq, not_true_eq_false, if_false, hfield]
  · unfold mergeCState
    simp [h]

theorem mergeBojler_applyMerge (records : List Rec) (fd : FormData)
    (existing x : Rec) :
    mergeBojler fd (applyMerge records fd existing x) = mergeBojler fd existing := by
  by_cases h : fd.bojlerConsumption = JVal.empty
  · have hfield : (applyMerge records fd existing x).bojlerConsumption =
        existing.bojlerConsumption := by
      show numOr0 (mergeBojler fd existing) = existing.bojlerConsumption
      rw [mergeBojler_eq, if_pos h]
    unfold mergeBojler
    simp only [h, ne_eq, not_true_eq_false, if_false, hfield]
  · unfold mergeBojler
    simp [h]

theorem mergeHC_some (records : List Rec) (fd : FormData) (existing : Rec) (v : ℚ)
    (hov : fd.householdConsumptionOverride = some v) :
    mergeHC records fd existing = v := by
  unfold mergeHC
  rw [hov]

theorem mergeHC_none (records : List Rec) (fd : FormData) (existing : Rec)
    (hov : fd.householdConsumptionOverride = none) :
    mergeHC records fd existing =
      calcConsumption (some (mergeHState fd existing))
        (getPreviousReading records fd.year fd.month .householdState
          (some existing.id)) := by
  unfold mergeHC
  rw [hov]

theorem mergeCC_some (records : List Rec) (fd : FormData) (existing : Rec) (v : ℚ)
    (hov : fd.carConsumptionOverride = some v) :
    mergeCC records fd existing = v := by
  unfold mergeCC
  rw [hov]

theorem mergeCC_none (records : List Rec) (fd : FormData) (existing : Rec)
    (hov : fd.carConsumptionOverride = none) :
    mergeCC records fd existing =
      calcConsumption (some (mergeCState fd existing))
        (getPreviousReading records fd.year fd.month .carState
          (some existing.id)) := by
  unfold mergeCC
  rw [hov]

theorem insertHC_some (records : List Rec) (fd : FormData) (v : ℚ)
    (hov : fd.householdConsumptionOverride = some v) :
    insertHC records fd = v := by
  unfold insertHC
  rw [hov]

theorem insertHC_none (records : List Rec) (fd : FormData)
    (hov : fd.householdConsumptionOverride = none) :
    insertHC records fd =
      calcConsumption (some fd.householdState)
        (getPreviousReading records fd.year fd.month .householdState none) := by
  unfold insertHC
  rw [hov]

theorem insertCC_some (records : List Rec) (fd : FormData) (v : ℚ)
    (hov : fd.carConsumptionOverride = some v) :
    insertCC records fd = v := by
  unfold insertCC
  rw [hov]

theorem insertCC_none (records : List Rec) (fd : FormData)
    (hov : fd.carConsumptionOverride = none) :
    insertCC records fd =
      calcConsumption (some fd.carState)
        (getPreviousReading records fd.year fd.month .carState none) := by
  unfold insertCC
  rw [hov]

theorem getPrev_map_merge (records : List Rec) (fd : FormData) (existing : Rec)
    (year month : ℤ) (f : StateField) :
    getPreviousReading (records.map fun r =>
        if r.id ≠ existing.id then r else applyMerge records fd existing r)
      year month f (some existing.id) =
      getPreviousReading records year month f (some existing.id) :=
  getPrev_congr _ _ year month f _ _
    (filter_excl_map records _ existing.id
      (fun r => mergeMapFn_id records fd existing r)
      (fun r h => if_pos h))

theorem mergeHC_twice (records : List Rec) (fd : FormData) (existing : Rec) :
    mergeHC (records.map fun r =>
        if r.id ≠ existing.id then r else applyMerge records fd existing r) fd
      (applyMerge records fd existing existing) = mergeHC records fd existing := by
  cases hov : fd.householdConsumptionOverride with
  | some v => rw [mergeHC_some _ fd _ v hov, mergeHC_some _ fd _ v hov]
  | none =>
    rw [mergeHC_none _ fd _ hov, mergeHC_none _ fd _ hov, mergeHState_applyMerge,
      applyMerge_id, getPrev_map_merge]

theorem mergeCC_twice (records : List Rec) (fd : FormData) (existing : Rec) :
    mergeCC (records.map fun r =>
        if r.id ≠ existing.id then r else applyMerge records fd existing r) fd
      (applyMerge records fd existing existing) = mergeCC records fd existing := by
  cases hov : fd.carConsumptionOverride with
  | some v => rw [mergeCC_some _ fd _ v hov, mergeCC_some _ fd _ v hov]
  | none =>
    rw [mergeCC_none _ fd _ hov, mergeCC_none _ fd _ hov, mergeCState_applyMerge,
      applyMerge_id, getPrev_map_merge]

theorem applyMerge_ext (records1 records2 : List Rec) (fd : FormData)
    (e1 e2 r : Rec)
    (hh : mergeHState fd e1 = mergeHState fd e2)
    (hc : mergeCState fd e1 = mergeCState fd e2)
    (hb : mergeBojler fd e1 = mergeBojler fd e2)
    (hhc : mergeHC records1 fd e1 = mergeHC records2 fd e2)
    (hcc : mergeCC records1 fd e1 = mergeCC records2 fd e2) :
    applyMerge records1 fd e1 r = applyMerge records2 fd e2 r := by
  unfold applyMerge
  rw [hh, hc, hb, hhc, hcc]

theorem applyMerge_twice (records : List Rec) (fd : FormData) (existing r : Rec) :
    applyMerge (records.map fun x =>
        if x.id ≠ existing.id then x else applyMerge records fd existing x) fd
      (applyMerge records fd existing existing) r = applyMerge records fd existing r :=
  applyMerge_ext _ records fd _ existing r
    (mergeHState_applyMerge records fd existing existing)
    (mergeCState_applyMerge records fd existing existing)
    (mergeBojler_applyMerge records fd existing existing)
    (mergeHC_twice records fd existing)
    (mergeCC_twice records fd existing)

theorem applyMerge_absorb (records : List Rec) (fd : FormData) (existing r : Rec) :
    applyMerge records fd existing (applyMerge records fd existing r) =
      applyMerge records fd existing r := rfl

theorem mergeMap_idem (records : List Rec) (fd : FormData) (existing : Rec) :
    (records.map fun r =>
        if r.id ≠ existing.id then r else applyMerge records fd existing r).map
      (fun r => if r.id ≠ existing.id then r else applyMerge records fd existing r) =
      records.map fun r =>
        if r.id ≠ existing.id then r else applyMerge records fd existing r := by
  rw [List.map_map]
  apply List.map_congr_left
  intro a ha
  show (fun r => if r.id ≠ existing.id then r else applyMerge records fd existing r)
      ((fun r => if r.id ≠ existing.id then r else applyMerge records fd existing r) a) =
    (if a.id ≠ existing.id then a else applyMerge records fd existing a)
  by_cases h : a.id ≠ existing.id
  · simp only [if_pos h]
  · simp only [if_neg h]
    show (if (applyMerge records fd existing a).id ≠ existing.id then
        applyMerge records fd existing a
      else applyMerge records fd existing (applyMerge records fd existing a)) = _
    rw [if_neg (by rw [applyMerge_id]; exact h), applyMerge_absorb]

theorem mergePath_twice_map (records : List Rec) (fd : FormData) (existing : Rec) :
    (mergePath records fd existing).1.map (fun r =>
        if r.id ≠ (applyMerge records fd existing existing).id then r
        else applyMerge (mergePath records fd existing).1 fd
          (applyMerge records fd existing existing) r) =
      (mergePath records fd existing).1 := by
  have hg2 : (fun r : Rec =>
      if r.id ≠ (applyMerge records fd existing existing).id then r
      else applyMerge (mergePath records fd existing).1 fd
        (applyMerge records fd existing existing) r) =
      (fun r : Rec =>
        if r.id ≠ existing.id then r else applyMerge records fd existing r) := by
    funext r
    rw [applyMerge_id]
    by_cases h : r.id ≠ existing.id
    · simp only [if_pos h]
    · simp only [if_neg h]
      exact applyMerge_twice records fd existing r
  rw [hg2]
  exact mergeMap_idem records fd existing

theorem mergePath_twice_fst (records : List Rec) (fd : FormData) (existing : Rec) :
    (mergePath (mergePath records fd existing).1 fd
        (applyMerge records fd existing existing)).1 =
      (mergePath records fd existing).1 :=
  mergePath_twice_map records fd existing

theorem mergePath_twice_record (records : List Rec) (fd : FormData) (existing : Rec) :
    (mergePath (mergePath records fd existing).1 fd
        (applyMerge records fd existing existing)).2.record =
      (mergePath records fd existing).2.record := by
  show ((mergePath records fd existing).1.map fun r =>
      if r.id ≠ (applyMerge records fd existing existing).id then r
      else applyMerge (mergePath records fd existing).1 fd
        (applyMerge records fd existing existing) r).find?
      (fun r => decide (r.id = (applyMerge records fd existing existing).id)) =
    (mergePath records fd existing).2.record
  rw [mergePath_twice_map records fd existing]
  have hp : (fun r : Rec =>
      decide (r.id = (applyMerge records fd existing existing).id)) =
      (fun r : Rec => decide (r.id = existing.id)) := by
    funext r
    rw [applyMerge_id]
  rw [hp]
  rfl

theorem getPrev_append_insert (records : List Rec) (fd : FormData) (newId : String)
    (year month : ℤ) (f : StateField) (hfresh : ∀ r ∈ records, r.id ≠ newId) :
    getPreviousReading (records ++ [newRecOf records fd newId]) year month f
        (some (newRecOf records fd newId).id) =
      getPreviousReading records year month f none :=
  getPrev_congr _ _ year month f _ _
    (filter_excl_append records (newRecOf records fd newId) hfresh)

theorem mergeHState_newRec (records : List Rec) (fd : FormData) (newId : String) :
    numOr0 (mergeHState fd (newRecOf records fd newId)) =
      (newRecOf records fd newId).householdState := by
  rw [mergeHState_eq]
  split <;> rfl

theorem mergeCState_newRec (records : List Rec) (fd : FormData) (newId : String) :
    numOr0 (mergeCState fd (newRecOf records fd newId)) =
      (newRecOf records fd newId).carState := by
  rw [mergeCState_eq]
  split <;> rfl

theorem mergeBojler_newRec (records : List Rec) (fd : FormData) (newId : String) :
    numOr0 (mergeBojler fd (newRecOf records fd newId)) =
      (newRecOf records fd newId).bojlerConsumption := by
  rw [mergeBojler_eq]
  split <;> rfl

theorem mergeHC_after_insert (records : List Rec) (fd : FormData) (newId : String)
    (hfresh : ∀ r ∈ records, r.id ≠ newId)
    (hpos : ∀ r ∈ records, 0 ≤ r.householdState) :
    mergeHC (records ++ [newRecOf records fd newId]) fd (newRecOf records fd newId) =
      insertHC records fd := by
  cases hov : fd.householdConsumptionOverride with
  | some v => rw [mergeHC_some _ fd _ v hov, insertHC_some _ fd v hov]
  | none =>
    rw [mergeHC_none _ fd _ hov, insertHC_none _ fd hov,
      getPrev_append_insert records fd newId fd.year fd.month .householdState hfresh]
    by_cases hh : fd.householdState = JVal.empty
    · have hst : mergeHState fd (newRecOf records fd newId) = JVal.num 0 := by
        unfold mergeHState
        rw [if_neg (fun hcon => hcon hh)]
        show JVal.num (numOr0 fd.householdState) = JVal.num 0
        rw [hh]
        rfl
      rw [hst, hh, calcConsumption_empty]
      cases hp : getPreviousReading records fd.year fd.month .householdState none with
      | none => rfl
      | some p =>
        obtain ⟨r, hr, -, -, hval, -⟩ :=
          getPrev_some records fd.year fd.month .householdState none p hp
        have hval2 : r.householdState = p := hval
        have hp0 : 0 ≤ p := hval2 ▸ hpos r hr
        show max 0 (0 - p) = 0
        rw [max_eq_left (by linarith)]
    · have hst : mergeHState fd (newRecOf records fd newId) = fd.householdState := by
        unfold mergeHState
        rw [if_pos hh]
      rw [hst]

theorem mergeCC_after_insert (records : List Rec) (fd : FormData) (newId : String)
    (hfresh : ∀ r ∈ records, r.id ≠ newId)
    (hpos : ∀ r ∈ records, 0 ≤ r.carState) :
    mergeCC (records ++ [newRecOf records fd newId]) fd (newRecOf records fd newId) =
      insertCC records fd := by
  cases hov : fd.carConsumptionOverride with
  | some v => rw [mergeCC_some _ fd _ v hov, insertCC_some _ fd v hov]
  | none =>
    rw [mergeCC_none _ fd _ hov, insertCC_none _ fd hov,
      getPrev_append_insert records fd newId fd.year fd.month .carState hfresh]
    by_cases hc : fd.carState = JVal.empty
    · have hst : mergeCState fd (newRecOf records fd newId) = JVal.num 0 := by
        unfold mergeCState
        rw [if_neg (fun hcon => hcon hc)]
        show JVal.num (numOr0 fd.carState) = JVal.num 0
        rw [hc]
        rfl
      rw [hst, hc, calcConsumption_empty]
      cases hp : getPreviousReading records fd.year fd.month .carState none with
      | none => rfl
      | some p =>
        obtain ⟨r, hr, -, -, hval, -⟩ :=
          getPrev_some records fd.year fd.month .carState none p hp
        have hval2 : r.carState = p := hval
        have hp0 : 0 ≤ p := hval2 ▸ hpos r hr
        show max 0 (0 - p) = 0
        rw [max_eq_left (by linarith)]
    · have hst : mergeCState fd (newRecOf records fd newId) = fd.carState := by
        unfold mergeCState
        rw [if_pos hc]
      rw [hst]

theorem applyMerge_newRec (records : List Rec) (fd : FormData) (newId : String)
    (hfresh : ∀ r ∈ records, r.id ≠ newId)
    (hposH : ∀ r ∈ records, 0 ≤ r.householdState)
    (hposC : ∀ r ∈ records, 0 ≤ r.carState) :
    applyMerge (records ++ [newRecOf records fd newId]) fd
      (newRecOf records fd newId) (newRecOf records fd newId) =
      newRecOf records fd newId := by
  unfold applyMerge
  rw [mergeHState_newRec, mergeCState_newRec, mergeBojler_newRec,
    mergeHC_after_insert records fd newId hfresh hposH,
    mergeCC_after_insert records fd newId hfresh hposC]
  rfl

theorem insertMap_self (records : List Rec) (fd : FormData) (newId : String)
    (hfresh : ∀ r ∈ records, r.id ≠ newId)
    (hposH : ∀ r ∈ records, 0 ≤ r.householdState)
    (hposC : ∀ r ∈ records, 0 ≤ r.carState) :
    (records ++ [newRecOf records fd newId]).map (fun r =>
        if r.id ≠ (newRecOf records fd newId).id then r
        else applyMerge (records ++ [newRecOf records fd newId]) fd
          (newRecOf records fd newId) r) =
      records ++ [newRecOf records fd newId] := by
  apply map_eq_self_of_mem
  intro a ha
  rcases List.mem_append.mp ha with h | h
  · exact if_pos (hfresh a h)
  · have heq : a = newRecOf records fd newId := by simpa using h
    subst heq
    rw [if_neg (fun hcon => hcon rfl)]
    exact applyMerge_newRec records fd newId hfresh hposH hposC

theorem insert_find_id (records : List Rec) (fd : FormData) (newId : String)
    (hfresh : ∀ r ∈ records, r.id ≠ newId) :
    (records ++ [newRecOf records fd newId]).find?
        (fun r => decide (r.id = (newRecOf records fd newId).id)) =
      some (newRecOf records fd newId) := by
  rw [List.find?_append]
  have h1 : records.find?
      (fun r => decide (r.id = (newRecOf records fd newId).id)) = none :=
    List.find?_eq_none.mpr (fun a ha => by simpa using hfresh a ha)
  rw [h1, Option.none_or]
  exact List.find?_cons_of_pos _ (by simp)

theorem insert_find_period (records : List Rec) (fd : FormData) (newId : String)
    (hfind : records.find? (fun r => decide (periodMatches fd.year fd.month r)) =
      none) :
    (records ++ [newRecOf records fd newId]).find?
        (fun r => decide (periodMatches fd.year fd.month r)) =
      some (newRecOf records fd newId) := by
  rw [List.find?_append, hfind, Option.none_or]
  refine List.find?_cons_of_pos _ ?_
  rw [decide_eq_true_iff]
  exact ⟨rfl, rfl⟩

theorem insert_merge_fst (records : List Rec) (fd : FormData) (newId : String)
    (hfresh : ∀ r ∈ records, r.id ≠ newId)
    (hposH : ∀ r ∈ records, 0 ≤ r.householdState)
    (hposC : ∀ r ∈ records, 0 ≤ r.carState) :
    (mergePath (insertPath records fd newId).1 fd (newRecOf records fd newId)).1 =
      (insertPath records fd newId).1 :=
  insertMap_self records fd newId hfresh hposH hposC

theorem insert_merge_record (records : List Rec) (fd : FormData) (newId : String)
    (hfresh : ∀ r ∈ records, r.id ≠ newId)
    (hposH : ∀ r ∈ records, 0 ≤ r.householdState)
    (hposC : ∀ r ∈ records, 0 ≤ r.carState) :
    (mergePath (insertPath records fd newId).1 fd (newRecOf records fd newId)).2.record =
      (insertPath records fd newId).2.record := by
  show ((records ++ [newRecOf records fd newId]).map (fun r =>
      if r.id ≠ (newRecOf records fd newId).id then r
      else applyMerge (records ++ [newRecOf records fd newId]) fd
        (newRecOf records fd newId) r)).find?
      (fun r => decide (r.id = (newRecOf records fd newId).id)) =
    some (newRecOf records fd newId)
  rw [insertMap_self records fd newId hfresh hposH hposC]
  exact insert_find_id records fd newId hfresh

theorem addRecord_twice_merge (records : List Rec) (fd : FormData)
    (newId newId2 : String) (existing : Rec)
    (hfind : records.find? (fun r => decide (periodMatches fd.year fd.month r)) =
      some existing) :
    (addRecord (addRecord records fd newId).1 fd newId2).1 =
        (addRecord records fd newId).1 ∧
      (addRecord (addRecord records fd newId).1 fd newId2).2.record =
        (addRecord records fd newId).2.record := by
  rw [addRecord_eq_merge records fd newId existing hfind]
  have hfind2 : (mergePath records fd existing).1.find?
      (fun r => decide (periodMatches fd.year fd.month r)) =
      some (applyMerge records fd existing existing) := by
    show (records.map fun r =>
        if r.id ≠ existing.id then r else applyMerge records fd existing r).find?
        (fun r => decide (periodMatches fd.year fd.month r)) = _
    rw [List.find?_map]
    have hpq : ((fun r : Rec => decide (periodMatches fd.year fd.month r)) ∘
        (fun r => if r.id ≠ existing.id then r else applyMerge records fd existing r)) =
        (fun r : Rec => decide (periodMatches fd.year fd.month r)) := by
      funext a
      show decide (periodMatches fd.year fd.month
        (if a.id ≠ existing.id then a else applyMerge records fd existing a)) = _
      unfold periodMatches
      simp only [mergeMapFn_year, mergeMapFn_month]
    rw [hpq, hfind, Option.map_some']
    rw [if_neg (fun hcon => hcon rfl)]
  rw [addRecord_eq_merge _ fd newId2 _ hfind2]
  exact ⟨mergePath_twice_fst records fd existing,
    mergePath_twice_record records fd existing⟩

theorem addRecord_twice_insert (records : List Rec) (fd : FormData)
    (newId newId2 : String)
    (hfind : records.find? (fun r => decide (periodMatches fd.year fd.month r)) =
      none)
    (hfresh : ∀ r ∈ records, r.id ≠ newId)
    (hposH : ∀ r ∈ records, 0 ≤ r.householdState)
    (hposC : ∀ r ∈ records, 0 ≤ r.carState) :
    (addRecord (addRecord records fd newId).1 fd newId2).1 =
        (addRecord records fd newId).1 ∧
      (addRecord (addRecord records fd newId).1 fd newId2).2.record =
        (addRecord records fd newId).2.record := by
  rw [addRecord_eq_insert records fd newId hfind]
  have hfind2 : (insertPath records fd newId).1.find?
      (fun r => decide (periodMatches fd.year fd.month r)) =
      some (newRecOf records fd newId) :=
    insert_find_period records fd newId hfind
  rw [addRecord_eq_merge _ fd newId2 _ hfind2]
  exact ⟨insert_merge_fst records fd newId hfresh hposH hposC,
    insert_merge_record records fd newId hfresh hposH hposC⟩

/-- C6 counterexample: with a stored record holding a negative household
state (January 2024, state −5), submitting the same update for February
2024 (blank household state) twice does not return the same record: the
first submission inserts household consumption 0, the second merges and
derives consumption 5 from the now-stored state 0 against the prior −5. -/
theorem C6_not_idempotent :
    (addRecord (addRecord [negJan] fdEmptyHousehold "b").1 fdEmptyHousehold "c").2.record ≠
      (addRecord [negJan] fdEmptyHousehold "b").2.record := by
  with_unfolding_all decide

/-- C6 amended: provided every stored household and car state in the set
is non-negative (and the generated id is fresh, as genId is designed to
provide), submitting the same incoming update twice in a row yields the
same record set and the same resulting record as the first submission. -/
theorem C6_idempotent (records : List Rec) (fd : FormData) (newId newId2 : String)
    (hpos : ∀ r ∈ records, 0 ≤ r.householdState ∧ 0 ≤ r.carState)
    (hfresh : ∀ r ∈ records, r.id ≠ newId) :
    (addRecord (addRecord records fd newId).1 fd newId2).1 =
        (addRecord records fd newId).1 ∧
      (addRecord (addRecord records fd newId).1 fd newId2).2.record =
        (addRecord records fd newId).2.record := by
  cases hfind : records.find?
      (fun r => decide (periodMatches fd.year fd.month r)) with
  | some existing => exact addRecord_twice_merge records fd newId newId2 existing hfind
  | none =>
    exact addRecord_twice_insert records fd newId newId2 hfind hfresh
      (fun r hr => (hpos r hr).1) (fun r hr => (hpos r hr).2)

/-- C6 witness: over the non-negative January record, submitting the
Scenario C update twice returns the same record and set. -/
theorem C6_idempotent_witness :
    (∀ r ∈ [scnJan], 0 ≤ r.householdState ∧ 0 ≤ r.carState) ∧
    (addRecord (addRecord [scnJan] scnSubmit "b").1 scnSubmit "c").1 =
        (addRecord [scnJan] scnSubmit "b").1 ∧
      (addRecord (addRecord [scnJan] scnSubmit "b").1 scnSubmit "c").2.record =
        (addRecord [scnJan] scnSubmit "b").2.record :=
  ⟨by with_unfolding_all decide,
   C6_idempotent [scnJan] scnSubmit "b" "c" (by with_unfolding_all decide)
     (by with_unfolding_all decide)⟩

/-- C8 counterexample: with records for years 999, 1000 and 2023, the
default (string-comparing) sort puts the distinct years in the order
[1000, 2023, 999], so the two year columns are 2023 and 999 even though
1000 is present and more recent than 999 — the columns are not the two
most recent years. -/
theorem C8_not_most_recent :
    (1000 : ℤ) ∈ [y999, y1000, y2023].map Rec.year ∧
    (999 : ℤ) < 1000 ∧
    selectedYears [y999, y1000, y2023] = [2023, 999] ∧
    (prepareMonthly [y999, y1000, y2023] ChartField.totalConsumption)[0]? =
      some { month := "Led", values := [(2023, some 43), (999, some 41)] } := by
  with_unfolding_all decide

/-- C8 amended: `prepareMonthly` emits one row per calendar month (12 rows
in calendar order); each row carries the field's value for each of the two
distinct years that sort last when the years are compared as decimal
strings (the two most recent years whenever all years have equally many
digits, e.g. the app's 2023-2030 range); a (year, month) with no record is
marked absent (`undefined`), which is distinguishable from the value
zero. -/
theorem C8_monthlyComparison (records : List Rec) (field : ChartField) :
    (prepareMonthly records field).length = 12 ∧
    (prepareMonthly records field).map MonthRow.month =
      MONTHS_CZ.map (fun s => s.take 3) ∧
    ∀ (i : ℕ) (row : MonthRow), (prepareMonthly records field)[i]? = some row →
      (row.values.map Prod.fst = selectedYears records ∧
       ∀ y v, (y, v) ∈ row.values →
         ((v = none ↔ ∀ r ∈ records, ¬ (r.year = y ∧ r.month = (i : ℤ) + 1)) ∧
          (∀ q, v = some q →
            ∃ r, r ∈ records ∧ r.year = y ∧ r.month = (i : ℤ) + 1 ∧
              chartVal field r = q))) := by
  refine ⟨?_, ?_, ?_⟩
  · unfold prepareMonthly
    rw [List.length_map]
    rfl
  · unfold prepareMonthly
    rw [List.map_map]
    show List.map ((fun s : String => s.take 3) ∘ Prod.snd) MONTHS_CZ.enum =
      MONTHS_CZ.map (fun s => s.take 3)
    rw [← List.map_map, List.enum_eq_enumFrom, List.enumFrom_map_snd]
  · intro i row hrow
    unfold prepareMonthly at hrow
    rw [List.getElem?_map, List.getElem?_enum] at hrow
    cases hm : MONTHS_CZ[i]? with
    | none => rw [hm] at hrow; cases hrow
    | some name =>
      rw [hm] at hrow
      rw [Option.map_some', Option.map_some'] at hrow
      have hrow2 : row = monthRowOf records field (i, name) :=
        ((Option.some.injEq _ _).mp hrow).symm
      subst hrow2
      constructor
      · show ((selectedYears records).map _).map Prod.fst = selectedYears records
        rw [List.map_map]
        exact map_eq_self_of_mem _ _ (fun a _ => rfl)
      · intro y v hyv
        rcases List.mem_map.mp hyv with ⟨y', hy', heq⟩
        have hy : y' = y := congrArg Prod.fst heq
        subst hy
        have hv : monthValue records field i y' = v := congrArg Prod.snd heq
        unfold monthValue at hv
        cases hf : records.find?
            (fun r => decide (r.year = y' ∧ r.month = (i : ℤ) + 1)) with
        | none =>
          rw [hf] at hv
          constructor
          · rw [← hv]
            constructor
            · intro _ r hr hcon
              have hnone := List.find?_eq_none.mp hf r hr
              rw [decide_eq_true_iff] at hnone
              exact hnone hcon
            · intro _
              rfl
          · intro q hq
            rw [← hv] at hq
            cases hq
        | some frec =>
          rw [hf] at hv
          have hfmem := List.mem_of_find?_eq_some hf
          have hfp := List.find?_some hf
          rw [decide_eq_true_iff] at hfp
          constructor
          · constructor
            · intro hcon
              rw [← hv] at hcon
              cases hcon
            · intro hall
              exact absurd hfp (hall frec hfmem)
          · intro q hq
            rw [← hv] at hq
            exact ⟨frec, hfmem, hfp.1, hfp.2,
              ((Option.some.injEq _ _).mp hq)⟩

/-- C8 witness: over the 999/1000/2023 data, the January row (index 0)
exists and its value columns are exactly the selected years. -/
theorem C8_monthlyComparison_witness :
    (prepareMonthly [y999, y1000, y2023] ChartField.totalConsumption)[0]? =
      some { month := "Led", values := [(2023, some 43), (999, some 41)] } ∧
    (({ month := "Led", values := [(2023, some 43), (999, some 41)] } :
        MonthRow).values.map Prod.fst) = selectedYears [y999, y1000, y2023] :=
  ⟨by with_unfolding_all decide,
   ((C8_monthlyComparison [y999, y1000, y2023] ChartField.totalConsumption).2.2 0
     { month := "Led", values := [(2023, some 43), (999, some 41)] }
     (by with_unfolding_all decide)).1⟩

end EnergyMonitor
